import Mathlib

/-!
Verification of the orchestration logic of the publish-to-the-kernel-hub
GitHub action (source: src/index.ts, current variant).

The action is a sequential pipeline: resolve inputs, install Nix, set up
Cachix, invoke nix build/run, then either perform a manual Kernel-Hub
upload, or copy the build result and optionally upload it as a CI artifact
and publish it to the Hugging Face hub.

We embed the pipeline shallowly: the raw action inputs become a record of
strings (`RawInputs`), external collaborators (installer, cachix, nix,
cp, artifact client, hub publisher, kernels CLI) are abstracted by a
`World` record saying which of them would fail and whether the fixed
`result` path exists after the nix invocation, and a run produces a
`Trace`: the ordered list of external invocations, the `core.setOutput`
calls, the `core.warning` calls, and the final success/failure signal.
-/

/-- The `nix-command` input after validation: the literal build or run. -/
inductive NixCommand where
  | build
  | run
deriving Repr, DecidableEq

/-- The raw string inputs of the action (`core.getInput` results; an absent
input is the empty string). Field defaults model absent inputs. -/
structure RawInputs where
  kernelPath : String := ""
  buildTarget : String := ""
  nixCommand : String := ""
  verbose : String := ""
  artifactName : String := ""
  uploadArtifact : String := ""
  cachixName : String := ""
  cachixAuthToken : String := ""
  nixMaxJobs : String := ""
  nixCores : String := ""
  sandboxMode : String := ""
  extraNixConf : String := ""
  hfToken : String := ""
  hfRepo : String := ""
  publish : String := ""
deriving Repr, DecidableEq

/-- The resolved `ActionInputs` record of the source. -/
structure ActionInputs where
  kernelPath : String
  buildTarget : String
  nixCommand : NixCommand
  verbose : Bool
  artifactName : String
  uploadArtifact : Bool
  cachixName : String
  cachixAuthToken : String
  nixMaxJobs : String
  nixCores : String
  sandboxMode : String
  extraNixConf : String
  hfToken : String
  hfRepo : String
  publish : Bool
deriving Repr, DecidableEq

/-- JavaScript `s || d` on strings: the empty string is falsy. -/
def orDefault (s d : String) : String :=
  if s = "" then d else s

/-- `getInputs` from the source: defaulting plus the nix-command
validation, which throws before anything else runs. -/
def getInputs (raw : RawInputs) : Except String ActionInputs :=
  let nixCommandStrRaw := orDefault raw.nixCommand "build"
  if nixCommandStrRaw = "build" ∨ nixCommandStrRaw = "run" then
    Except.ok
      { kernelPath := orDefault raw.kernelPath "."
        buildTarget := orDefault raw.buildTarget "ci"
        nixCommand := if nixCommandStrRaw = "build" then .build else .run
        verbose := raw.verbose != "false"
        artifactName := orDefault raw.artifactName "kernel"
        uploadArtifact := raw.uploadArtifact != "false"
        cachixName := orDefault raw.cachixName "huggingface"
        cachixAuthToken := orDefault raw.cachixAuthToken ""
        nixMaxJobs := orDefault raw.nixMaxJobs "4"
        nixCores := orDefault raw.nixCores "12"
        sandboxMode := orDefault raw.sandboxMode "fallback"
        extraNixConf := orDefault raw.extraNixConf ""
        hfToken := orDefault raw.hfToken ""
        hfRepo := orDefault raw.hfRepo ""
        publish := raw.publish == "true" }
  else
    Except.error ("Invalid nix-command: " ++ nixCommandStrRaw ++
      ". Must be \x27build\x27 or \x27run\x27.")

/-- The sandbox line of the nix installer configuration, from the switch
in `installNix`: the fallback case and the default case coincide. -/
def sandboxConf (sandboxMode : String) : String :=
  if sandboxMode = "relaxed" then "sandbox = relaxed"
  else if sandboxMode = "true" then "sandbox = true"
  else if sandboxMode = "false" then "sandbox = false"
  else "sandbox-fallback = false"

/-- The `--extra-conf` block `installNix` hands to the installer; the
free-form extra configuration is appended last when non-empty. -/
def installNixConf (maxJobs cores sandboxMode extraNixConf : String) : String :=
  let base := "max-jobs = " ++ maxJobs ++ "\ncores = " ++ cores ++ "\n" ++
    sandboxConf sandboxMode ++
    "\nexperimental-features = nix-command flakes\ntrusted-users = root runner"
  if extraNixConf != "" then base ++ "\n" ++ extraNixConf else base

/-- One external invocation performed by the action. Each constructor is
one collaborator call site of the source (the curl+sh pair of `installNix`
is one installer invocation, and the pip+python pair of
`publishToHuggingFace` is one publish invocation). -/
inductive ExternalCall where
  /-- `installNix`: download and run the nix installer with the derived
  extra configuration block. -/
  | installNix (extraConf : String)
  /-- `setupCachix`: nix-env installation of the cachix client. -/
  | cachixInstall
  /-- `setupCachix`: cachix authtoken, only when a token is provided. -/
  | cachixAuth (token : String)
  /-- `setupCachix`: cachix use of the named cache. -/
  | cachixUse (name : String)
  /-- `buildKernel`: the nix build/run invocation, with the verbosity
  flag, the flake target and the optional HF_REPO environment variable. -/
  | nix (command : String) (verbose : Bool) (target : String)
      (hfRepoEnv : Option String)
  /-- `copyKernel`: cp -rL from the result path to the output path. -/
  | cp (src dst : String)
  /-- `uploadKernelArtifact`: the CI artifact upload. -/
  | uploadArtifact (name : String)
  /-- `publishToHuggingFace`: the hub publish of a local directory. -/
  | publishHF (dir repo : String)
  /-- `uploadWithKernelsCli`: the direct kernels-CLI upload from the
  source directory to the given repository. -/
  | manualUpload (dir repo : String)
deriving Repr, DecidableEq

/-- Predicate: the call is part of cachix setup. -/
def isCachixCall : ExternalCall → Bool
  | .cachixInstall => true
  | .cachixAuth _ => true
  | .cachixUse _ => true
  | _ => false

/-- Predicate: the call is the nix build/run invocation. -/
def isNixCall : ExternalCall → Bool
  | .nix _ _ _ _ => true
  | _ => false

/-- Predicate: the call is the packaging copy. -/
def isCopyCall : ExternalCall → Bool
  | .cp _ _ => true
  | _ => false

/-- Predicate: the call is the generic CI artifact upload. -/
def isUploadCall : ExternalCall → Bool
  | .uploadArtifact _ => true
  | _ => false

/-- Predicate: the call is the hub publish. -/
def isPublishCall : ExternalCall → Bool
  | .publishHF _ _ => true
  | _ => false

/-- Predicate: the call is the direct kernels-CLI upload. -/
def isManualUploadCall : ExternalCall → Bool
  | .manualUpload _ _ => true
  | _ => false

/-- The environment of one run: whether the fixed `result` path exists
after the nix invocation, and which external collaborators fail when
invoked. Defaults describe the all-successful world. -/
structure World where
  resultExists : Bool := true
  installFails : Bool := false
  cachixFails : Bool := false
  nixFails : Bool := false
  copyFails : Bool := false
  uploadFails : Bool := false
  publishFails : Bool := false
  manualUploadFails : Bool := false
deriving Repr, DecidableEq

/-- Final signal of a run: success, or `core.setFailed` with a message. -/
inductive RunResult where
  | success
  | failed (msg : String)
deriving Repr, DecidableEq

/-- Observable trace of one run: external invocations in order, the
`core.setOutput` pairs in order, the warnings, and the final signal. -/
structure Trace where
  calls : List ExternalCall
  outputs : List (String × String)
  warnings : List String
  result : RunResult
deriving Repr, DecidableEq

/-- A failed run that set no outputs (`core.setFailed` from the catch
block, before any `core.setOutput`). -/
def failTrace (calls : List ExternalCall) (msg : String) : Trace :=
  { calls := calls, outputs := [], warnings := [], result := .failed msg }

/-- Opaque message of a failing installer invocation: the orchestrator
forwards the collaborator error message verbatim. -/
def installFailMsg : String := "nix installer invocation failed"

/-- Opaque message of a failing cachix setup. -/
def cachixFailMsg : String := "cachix setup invocation failed"

/-- Opaque message of a failing nix build/run invocation. -/
def nixFailMsg : String := "nix invocation failed"

/-- Opaque message of a failing packaging copy. -/
def copyFailMsg : String := "cp invocation failed"

/-- Opaque message of a failing CI artifact upload. -/
def uploadFailMsg : String := "artifact upload failed"

/-- Opaque message of a failing hub publish. -/
def publishFailMsg : String := "hub publish failed"

/-- Opaque message of a failing kernels-CLI upload. -/
def manualUploadFailMsg : String := "kernels-cli upload failed"

/-- The warning emitted when publish is requested without complete
credentials, verbatim from the source. -/
def publishSkippedWarning : String :=
  "Publish requested but hf-token or hf-repo not provided. Skipping publish."

/-- `path.resolve` of the external path library, modelled as the identity
(the sources only ever compare the resolved path with itself). -/
def pathResolve (p : String) : String := p

/-- `path.join` of the external path library on two segments. -/
def pathJoin (a b : String) : String := a ++ "/" ++ b

/-- The string the action passes as the nix subcommand. -/
def nixCommandStr : NixCommand → String
  | .build => "build"
  | .run => "run"

/-- The condition of the target rewrite in `run`: hf-repo set (truthy)
and the requested target is the literal build-and-upload. -/
def needsManualUpload (inputs : ActionInputs) : Bool :=
  inputs.hfRepo != "" && inputs.buildTarget == "build-and-upload"

/-- The invocations `setupCachix` performs: none when the cache name is
empty, else client installation, optional authentication, cache use. -/
def setupCachixCalls (name authToken : String) : List ExternalCall :=
  if name = "" then []
  else [ExternalCall.cachixInstall] ++
    (if authToken != "" then [ExternalCall.cachixAuth authToken] else []) ++
    [ExternalCall.cachixUse name]

/-- `buildKernel` from the source: the nix invocation (with HF_REPO in the
environment when hf-repo is truthy), then the check of the fixed
`result` path. In build mode a missing result throws; in run mode it
yields a null result path. Returns the invocation and the outcome. -/
def buildKernel (kernelPath buildTarget : String) (cmd : NixCommand)
    (verbose : Bool) (hfRepo : String) (w : World) :
    List ExternalCall × Except String (Option String) :=
  let absoluteKernelPath := pathResolve kernelPath
  let call := ExternalCall.nix (nixCommandStr cmd) verbose
    ("." ++ "#" ++ buildTarget)
    (if hfRepo != "" then some hfRepo else none)
  if w.nixFails then ([call], .error nixFailMsg)
  else
    let resultPath := pathJoin absoluteKernelPath "result"
    if w.resultExists then ([call], .ok (some resultPath))
    else
      match cmd with
      | .build => ([call], .error ("Build result not found at " ++ resultPath))
      | .run => ([call], .ok none)

/-- A successful early return of `run` (manual-upload and null-result
branches): kernel-path output set to the empty string, artifact-name
output set to the resolved artifact name. -/
def successEarly (calls : List ExternalCall) (inputs : ActionInputs) : Trace :=
  { calls := calls
    outputs := [("kernel-path", ""), ("artifact-name", inputs.artifactName)]
    warnings := []
    result := .success }

/-- The publish branch at the end of `run`: the hub publish runs only
when the publish flag is set and both credentials are truthy; when the
flag is set but a credential is missing, only a warning is emitted. The
outputs were already set when packaging finished. -/
def publishStep (calls : List ExternalCall) (outs : List (String × String))
    (outputPath : String) (inputs : ActionInputs) (w : World) : Trace :=
  if inputs.publish && inputs.hfToken != "" && inputs.hfRepo != "" then
    let p := ExternalCall.publishHF outputPath inputs.hfRepo
    if w.publishFails then
      { calls := calls ++ [p], outputs := outs, warnings := []
        result := .failed publishFailMsg }
    else
      { calls := calls ++ [p], outputs := outs, warnings := []
        result := .success }
  else if inputs.publish then
    { calls := calls, outputs := outs
      warnings := [publishSkippedWarning], result := .success }
  else
    { calls := calls, outputs := outs, warnings := [], result := .success }

/-- Tail of `run` after the packaging copy succeeded: the conditional
artifact upload, then the publish branch with its credential check. -/
def afterCopy (calls : List ExternalCall) (outs : List (String × String))
    (outputPath : String) (inputs : ActionInputs) (w : World) : Trace :=
  if inputs.uploadArtifact then
    let u := ExternalCall.uploadArtifact inputs.artifactName
    if w.uploadFails then
      { calls := calls ++ [u], outputs := outs, warnings := []
        result := .failed uploadFailMsg }
    else publishStep (calls ++ [u]) outs outputPath inputs w
  else publishStep calls outs outputPath inputs w

/-- The body of `run` after `getInputs` succeeded: target rewrite, nix
installation, cachix setup, build, then the manual-upload branch, the
null-result branch, or packaging followed by `afterCopy`. -/
def runWithInputs (inputs : ActionInputs) (w : World) : Trace :=
  let buildTarget :=
    if needsManualUpload inputs then "build-and-copy" else inputs.buildTarget
  let installCall := ExternalCall.installNix
    (installNixConf inputs.nixMaxJobs inputs.nixCores inputs.sandboxMode
      inputs.extraNixConf)
  if w.installFails then failTrace [installCall] installFailMsg
  else
    let cachixCalls := setupCachixCalls inputs.cachixName inputs.cachixAuthToken
    if inputs.cachixName != "" && w.cachixFails then
      failTrace ([installCall] ++ cachixCalls) cachixFailMsg
    else
      let pre := [installCall] ++ cachixCalls
      let built := buildKernel inputs.kernelPath buildTarget inputs.nixCommand
        inputs.verbose inputs.hfRepo w
      let calls := pre ++ built.1
      match built.2 with
      | .error msg => failTrace calls msg
      | .ok resultPath =>
        if needsManualUpload inputs then
          let m := ExternalCall.manualUpload inputs.kernelPath inputs.hfRepo
          if w.manualUploadFails then
            failTrace (calls ++ [m]) manualUploadFailMsg
          else successEarly (calls ++ [m]) inputs
        else
          match resultPath with
          | none => successEarly calls inputs
          | some rp =>
            let outputPath := inputs.artifactName ++ "-output"
            let c := ExternalCall.cp rp outputPath
            if w.copyFails then failTrace (calls ++ [c]) copyFailMsg
            else
              let outs := [("kernel-path", outputPath),
                ("artifact-name", inputs.artifactName)]
              afterCopy (calls ++ [c]) outs outputPath inputs w

/-- `run` from the source: resolve inputs (whose validation failure is
caught with no external call made), then execute the pipeline. -/
def run (raw : RawInputs) (w : World) : Trace :=
  match getInputs raw with
  | .error msg => failTrace [] msg
  | .ok inputs => runWithInputs inputs w

/-- The all-default raw inputs: every action input absent. -/
def emptyRaw : RawInputs := {}

/-- The happy-path world: the fixed result path exists after the nix
invocation and every collaborator succeeds. -/
def happyWorld : World := {}

/-- The resolved configuration produced from the all-default inputs. -/
def defaultInputs : ActionInputs :=
  { kernelPath := "."
    buildTarget := "ci"
    nixCommand := .build
    verbose := true
    artifactName := "kernel"
    uploadArtifact := true
    cachixName := "huggingface"
    cachixAuthToken := ""
    nixMaxJobs := "4"
    nixCores := "12"
    sandboxMode := "fallback"
    extraNixConf := ""
    hfToken := ""
    hfRepo := ""
    publish := false }

theorem publishStep_outputs (calls : List ExternalCall)
    (outs : List (String × String)) (outputPath : String)
    (inputs : ActionInputs) (w : World) :
    (publishStep calls outs outputPath inputs w).outputs = outs := by
  unfold publishStep
  split
  · split <;> rfl
  · split <;> rfl

theorem afterCopy_outputs (calls : List ExternalCall)
    (outs : List (String × String)) (outputPath : String)
    (inputs : ActionInputs) (w : World) :
    (afterCopy calls outs outputPath inputs w).outputs = outs := by
  unfold afterCopy
  split
  · split
    · rfl
    · exact publishStep_outputs _ _ _ _ _
  · exact publishStep_outputs _ _ _ _ _

theorem publishStep_calls_shape (calls : List ExternalCall)
    (outs : List (String × String)) (outputPath : String)
    (inputs : ActionInputs) (w : World) :
    ∃ extra, (publishStep calls outs outputPath inputs w).calls = calls ++ extra ∧
      ∀ c ∈ extra, isPublishCall c = true := by
  unfold publishStep
  split
  · split
    · exact ⟨[ExternalCall.publishHF outputPath inputs.hfRepo], rfl,
        by simp [isPublishCall]⟩
    · exact ⟨[ExternalCall.publishHF outputPath inputs.hfRepo], rfl,
        by simp [isPublishCall]⟩
  · split
    · exact ⟨[], by simp, by simp⟩
    · exact ⟨[], by simp, by simp⟩

theorem afterCopy_calls_shape (calls : List ExternalCall)
    (outs : List (String × String)) (outputPath : String)
    (inputs : ActionInputs) (w : World) :
    ∃ extra, (afterCopy calls outs outputPath inputs w).calls = calls ++ extra ∧
      ∀ c ∈ extra, isUploadCall c = true ∨ isPublishCall c = true := by
  unfold afterCopy
  split
  · split
    · exact ⟨[ExternalCall.uploadArtifact inputs.artifactName], rfl,
        by simp [isUploadCall]⟩
    · obtain ⟨extra, he, hall⟩ := publishStep_calls_shape
        (calls ++ [ExternalCall.uploadArtifact inputs.artifactName]) outs
        outputPath inputs w
      refine ⟨[ExternalCall.uploadArtifact inputs.artifactName] ++ extra,
        by simp [he], ?_⟩
      intro c hc
      rcases List.mem_append.mp hc with h | h
      · simp at h
        subst h
        exact Or.inl rfl
      · exact Or.inr (hall c h)
  · obtain ⟨extra, he, hall⟩ := publishStep_calls_shape calls outs
      outputPath inputs w
    exact ⟨extra, he, fun c hc => Or.inr (hall c hc)⟩

theorem publishStep_failed (calls : List ExternalCall)
    (outs : List (String × String)) (outputPath : String)
    (inputs : ActionInputs) (w : World) (msg : String)
    (h : (publishStep calls outs outputPath inputs w).result = .failed msg) :
    w.publishFails = true := by
  unfold publishStep at h
  split at h
  · split at h
    · assumption
    · simp at h
  · split at h <;> simp at h

theorem afterCopy_failed (calls : List ExternalCall)
    (outs : List (String × String)) (outputPath : String)
    (inputs : ActionInputs) (w : World) (msg : String)
    (h : (afterCopy calls outs outputPath inputs w).result = .failed msg) :
    w.uploadFails = true ∨ w.publishFails = true := by
  unfold afterCopy at h
  split at h
  · split at h
    · exact Or.inl (by assumption)
    · exact Or.inr (publishStep_failed _ _ _ _ _ _ h)
  · exact Or.inr (publishStep_failed _ _ _ _ _ _ h)

theorem buildKernel_calls (kernelPath buildTarget : String) (cmd : NixCommand)
    (verbose : Bool) (hfRepo : String) (w : World) :
    (buildKernel kernelPath buildTarget cmd verbose hfRepo w).1 =
      [ExternalCall.nix (nixCommandStr cmd) verbose ("." ++ "#" ++ buildTarget)
        (if hfRepo != "" then some hfRepo else none)] := by
  unfold buildKernel
  cases hnf : w.nixFails with
  | true => simp [hnf]
  | false =>
    cases hre : w.resultExists with
    | true => simp [hnf, hre]
    | false => cases cmd <;> simp [hnf, hre]

theorem runWithInputs_calls_shape (inputs : ActionInputs) (w : World)
    (hi : w.installFails = false)
    (hcx : (inputs.cachixName != "" && w.cachixFails) = false) :
    ∃ rest : List ExternalCall,
      (runWithInputs inputs w).calls =
        ExternalCall.installNix (installNixConf inputs.nixMaxJobs
          inputs.nixCores inputs.sandboxMode inputs.extraNixConf) ::
        (setupCachixCalls inputs.cachixName inputs.cachixAuthToken ++
         (ExternalCall.nix (nixCommandStr inputs.nixCommand) inputs.verbose
            ("." ++ "#" ++ (if needsManualUpload inputs then "build-and-copy"
              else inputs.buildTarget))
            (if inputs.hfRepo != "" then some inputs.hfRepo else none) :: rest)) ∧
      ∀ c ∈ rest, isCopyCall c = true ∨ isUploadCall c = true ∨
        isPublishCall c = true ∨ isManualUploadCall c = true := by
  unfold runWithInputs
  simp only [hi, hcx, Bool.false_eq_true, if_false, reduceIte, buildKernel_calls]
  cases h2 : (buildKernel inputs.kernelPath
      (if needsManualUpload inputs = true then "build-and-copy"
        else inputs.buildTarget)
      inputs.nixCommand inputs.verbose inputs.hfRepo w).2 with
  | error msg =>
    simp only [h2]
    exact ⟨[], by simp [failTrace], by simp⟩
  | ok resultPath =>
    simp only [h2]
    cases hnm : needsManualUpload inputs with
    | true =>
      simp only [hnm, reduceIte]
      cases hmf : w.manualUploadFails with
      | true =>
        simp only [hmf, reduceIte]
        refine ⟨[ExternalCall.manualUpload inputs.kernelPath inputs.hfRepo],
          by simp [failTrace], ?_⟩
        intro c hc
        simp at hc
        subst hc
        simp [isManualUploadCall]
      | false =>
        simp only [hmf, Bool.false_eq_true, reduceIte]
        refine ⟨[ExternalCall.manualUpload inputs.kernelPath inputs.hfRepo],
          by simp [successEarly], ?_⟩
        intro c hc
        simp at hc
        subst hc
        simp [isManualUploadCall]
    | false =>
      simp only [hnm, Bool.false_eq_true, reduceIte]
      cases resultPath with
      | none => exact ⟨[], by simp [successEarly], by simp⟩
      | some rp =>
        cases hcf : w.copyFails with
        | true =>
          simp only [hcf, reduceIte]
          refine ⟨[ExternalCall.cp rp (inputs.artifactName ++ "-output")],
            by simp [failTrace], ?_⟩
          intro c hc
          simp at hc
          subst hc
          simp [isCopyCall]
        | false =>
          simp only [hcf, Bool.false_eq_true, reduceIte]
          obtain ⟨extra, he, hall⟩ := afterCopy_calls_shape
            (([ExternalCall.installNix (installNixConf inputs.nixMaxJobs
                inputs.nixCores inputs.sandboxMode inputs.extraNixConf)] ++
              setupCachixCalls inputs.cachixName inputs.cachixAuthToken ++
              [ExternalCall.nix (nixCommandStr inputs.nixCommand) inputs.verbose
                ("." ++ "#" ++ (if needsManualUpload inputs then "build-and-copy"
                  else inputs.buildTarget))
                (if inputs.hfRepo != "" then some inputs.hfRepo else none)]) ++
              [ExternalCall.cp rp (inputs.artifactName ++ "-output")])
            [("kernel-path", inputs.artifactName ++ "-output"),
              ("artifact-name", inputs.artifactName)]
            (inputs.artifactName ++ "-output") inputs w
          simp only [hnm, Bool.false_eq_true, reduceIte] at he
          refine ⟨ExternalCall.cp rp (inputs.artifactName ++ "-output") :: extra,
            ?_, ?_⟩
          · rw [he]
            simp
          · intro c hc
            rcases List.mem_cons.mp hc with h | h
            · subst h
              exact Or.inl rfl
            · rcases hall c h with h | h
              · exact Or.inr (Or.inl h)
              · exact Or.inr (Or.inr (Or.inl h))

/-- Claim C7: the sandbox-mode input maps to the installer sandbox
directive exactly: relaxed, forced on, forced off, and every other value
(the fallback literal included) yields the fallback-disabled directive. -/
theorem sandboxConf_mapping :
    sandboxConf "relaxed" = "sandbox = relaxed" ∧
    sandboxConf "true" = "sandbox = true" ∧
    sandboxConf "false" = "sandbox = false" ∧
    sandboxConf "fallback" = "sandbox-fallback = false" ∧
    ∀ s : String, s ≠ "relaxed" → s ≠ "true" → s ≠ "false" →
      sandboxConf s = "sandbox-fallback = false" := by
  refine ⟨rfl, rfl, rfl, rfl, ?_⟩
  intro s h1 h2 h3
  simp [sandboxConf, h1, h2, h3]

/-- Witness for C7 at a concrete unrecognized sandbox mode. -/
theorem sandboxConf_mapping_witness :
    sandboxConf "custom" = "sandbox-fallback = false" :=
  sandboxConf_mapping.2.2.2.2 "custom" (by decide) (by decide) (by decide)

/-- Claim C9: every string field of the resolved configuration gets its
fixed literal default when the raw input is empty, verbosity and the
upload flag are opt-out (true unless the raw value is the literal false),
and the publish flag is opt-in (true only if the raw value is the literal
true). -/
theorem getInputs_defaults (raw : RawInputs) (inputs : ActionInputs)
    (hg : getInputs raw = Except.ok inputs) :
    (raw.kernelPath = "" → inputs.kernelPath = ".") ∧
    (raw.buildTarget = "" → inputs.buildTarget = "ci") ∧
    (raw.nixCommand = "" → inputs.nixCommand = NixCommand.build) ∧
    (raw.artifactName = "" → inputs.artifactName = "kernel") ∧
    (raw.cachixName = "" → inputs.cachixName = "huggingface") ∧
    (raw.cachixAuthToken = "" → inputs.cachixAuthToken = "") ∧
    (raw.nixMaxJobs = "" → inputs.nixMaxJobs = "4") ∧
    (raw.nixCores = "" → inputs.nixCores = "12") ∧
    (raw.sandboxMode = "" → inputs.sandboxMode = "fallback") ∧
    (raw.extraNixConf = "" → inputs.extraNixConf = "") ∧
    (raw.hfToken = "" → inputs.hfToken = "") ∧
    (raw.hfRepo = "" → inputs.hfRepo = "") ∧
    inputs.verbose = (raw.verbose != "false") ∧
    inputs.uploadArtifact = (raw.uploadArtifact != "false") ∧
    inputs.publish = (raw.publish == "true") := by
  by_cases hb : orDefault raw.nixCommand "build" = "build" ∨
      orDefault raw.nixCommand "build" = "run"
  · simp only [getInputs, hb, if_true, Except.ok.injEq] at hg
    subst hg
    refine ⟨fun h1 => by simp [orDefault, h1],
      fun h1 => by simp [orDefault, h1],
      fun h1 => by simp [orDefault, h1],
      fun h1 => by simp [orDefault, h1],
      fun h1 => by simp [orDefault, h1],
      fun h1 => by simp [orDefault, h1],
      fun h1 => by simp [orDefault, h1],
      fun h1 => by simp [orDefault, h1],
      fun h1 => by simp [orDefault, h1],
      fun h1 => by simp [orDefault, h1],
      fun h1 => by simp [orDefault, h1],
      fun h1 => by simp [orDefault, h1],
      rfl, rfl, rfl⟩
  · simp only [getInputs, hb, if_false] at hg
    cases hg

/-- Witness for C9 at the all-default raw inputs. -/
theorem getInputs_defaults_witness :
    defaultInputs.kernelPath = "." ∧ defaultInputs.buildTarget = "ci" ∧
    defaultInputs.nixCommand = NixCommand.build ∧
    defaultInputs.publish = false := by
  obtain ⟨h1, h2, h3, -, -, -, -, -, -, -, -, -, -, -, h15⟩ :=
    getInputs_defaults emptyRaw defaultInputs (by rfl)
  exact ⟨h1 rfl, h2 rfl, h3 rfl, by rw [h15]; decide⟩

/-- Claim C5: a non-empty execution-mode input other than the build and
run literals makes `getInputs` throw, the run fails with the validation
message, and no external invocation at all occurs. -/
theorem invalid_nix_command_fails (raw : RawInputs) (w : World)
    (h1 : raw.nixCommand ≠ "") (h2 : raw.nixCommand ≠ "build")
    (h3 : raw.nixCommand ≠ "run") :
    (run raw w).calls = [] ∧
    (run raw w).result = .failed ("Invalid nix-command: " ++ raw.nixCommand ++
      ". Must be \x27build\x27 or \x27run\x27.") := by
  have hd : orDefault raw.nixCommand "build" = raw.nixCommand := by
    simp [orDefault, h1]
  have hg : getInputs raw = Except.error ("Invalid nix-command: " ++
      raw.nixCommand ++ ". Must be \x27build\x27 or \x27run\x27.") := by
    unfold getInputs
    rw [hd]
    simp [h2, h3]
  simp [run, hg, failTrace]

/-- Witness for C5 at a concrete invalid execution mode. -/
theorem invalid_nix_command_fails_witness :
    (run { nixCommand := "weird" } {}).calls = [] ∧
    (run { nixCommand := "weird" } {}).result =
      .failed ("Invalid nix-command: " ++ "weird" ++
        ". Must be \x27build\x27 or \x27run\x27.") :=
  invalid_nix_command_fails { nixCommand := "weird" } {} (by decide)
    (by decide) (by decide)

theorem tail_call_not_cachix (c : ExternalCall)
    (h : isCopyCall c = true ∨ isUploadCall c = true ∨
      isPublishCall c = true ∨ isManualUploadCall c = true) :
    isCachixCall c = false := by
  cases c <;> simp_all [isCopyCall, isUploadCall, isPublishCall,
    isManualUploadCall, isCachixCall]

theorem buildKernel_ok_of_resultExists (kp bt : String) (cmd : NixCommand)
    (vb : Bool) (repo : String) (w : World)
    (hnf : w.nixFails = false) (hre : w.resultExists = true) :
    (buildKernel kp bt cmd vb repo w).2 =
      Except.ok (some (pathJoin (pathResolve kp) "result")) := by
  unfold buildKernel
  simp [hnf, hre]

theorem buildKernel_run_none (kp bt : String) (vb : Bool) (repo : String)
    (w : World) (hnf : w.nixFails = false) (hre : w.resultExists = false) :
    (buildKernel kp bt NixCommand.run vb repo w).2 = Except.ok none := by
  unfold buildKernel
  simp [hnf, hre]

theorem buildKernel_build_missing (kp bt : String) (vb : Bool) (repo : String)
    (w : World) (hnf : w.nixFails = false) (hre : w.resultExists = false) :
    (buildKernel kp bt NixCommand.build vb repo w).2 =
      Except.error ("Build result not found at " ++
        pathJoin (pathResolve kp) "result") := by
  unfold buildKernel
  simp [hnf, hre]

/-- Claim C8: with an empty cache name, cachix setup performs no external
call and raises no error, and the run still reaches the build stage (the
nix invocation occurs). -/
theorem empty_cache_name_skips_cachix (inputs : ActionInputs) (w : World)
    (hc : inputs.cachixName = "") (hi : w.installFails = false) :
    setupCachixCalls inputs.cachixName inputs.cachixAuthToken = [] ∧
    (∀ c ∈ (runWithInputs inputs w).calls, isCachixCall c = false) ∧
    (∃ c ∈ (runWithInputs inputs w).calls, isNixCall c = true) := by
  have hsc : setupCachixCalls inputs.cachixName inputs.cachixAuthToken = [] := by
    simp [setupCachixCalls, hc]
  have hcx : (inputs.cachixName != "" && w.cachixFails) = false := by
    simp [hc]
  obtain ⟨rest, hcalls, hrest⟩ := runWithInputs_calls_shape inputs w hi hcx
  rw [hsc] at hcalls
  refine ⟨hsc, ?_, ?_⟩
  · intro c hcmem
    rw [hcalls] at hcmem
    simp only [List.nil_append, List.mem_cons] at hcmem
    rcases hcmem with h | h | h
    · subst h
      rfl
    · subst h
      rfl
    · exact tail_call_not_cachix c (hrest c h)
  · refine ⟨ExternalCall.nix (nixCommandStr inputs.nixCommand) inputs.verbose
      ("." ++ "#" ++ (if needsManualUpload inputs then "build-and-copy"
        else inputs.buildTarget))
      (if inputs.hfRepo != "" then some inputs.hfRepo else none), ?_, rfl⟩
    rw [hcalls]
    simp

/-- Witness for C8 at a configuration whose cache name is empty, in the
happy-path world. -/
theorem empty_cache_name_skips_cachix_witness :
    setupCachixCalls ({ defaultInputs with cachixName := "" } :
      ActionInputs).cachixName ({ defaultInputs with cachixName := "" } :
      ActionInputs).cachixAuthToken = [] ∧
    (∀ c ∈ (runWithInputs { defaultInputs with cachixName := "" }
      happyWorld).calls, isCachixCall c = false) ∧
    (∃ c ∈ (runWithInputs { defaultInputs with cachixName := "" }
      happyWorld).calls, isNixCall c = true) :=
  empty_cache_name_skips_cachix { defaultInputs with cachixName := "" }
    happyWorld rfl rfl

/-- Claim C1: the manual-upload flag holds iff hf-repo is non-empty and
the requested target is build-and-upload; in exactly that case the
effective target handed to nix is build-and-copy, the direct kernels-CLI
upload runs against the user repository, and the run succeeds with an
empty kernel-path output. -/
theorem manual_upload_path (raw : RawInputs) (w : World)
    (inputs : ActionInputs) (hg : getInputs raw = Except.ok inputs)
    (hi : w.installFails = false) (hcf : w.cachixFails = false)
    (hnf : w.nixFails = false) (hre : w.resultExists = true)
    (hmf : w.manualUploadFails = false) :
    (needsManualUpload inputs = true ↔
      (inputs.hfRepo ≠ "" ∧ inputs.buildTarget = "build-and-upload")) ∧
    (needsManualUpload inputs = true →
      ExternalCall.nix (nixCommandStr inputs.nixCommand) inputs.verbose
        ("." ++ "#" ++ "build-and-copy") (some inputs.hfRepo) ∈
        (run raw w).calls ∧
      ExternalCall.manualUpload inputs.kernelPath inputs.hfRepo ∈
        (run raw w).calls ∧
      (run raw w).result = RunResult.success ∧
      (run raw w).outputs =
        [("kernel-path", ""), ("artifact-name", inputs.artifactName)]) := by
  constructor
  · simp [needsManualUpload, Bool.and_eq_true, bne_iff_ne, beq_iff_eq]
  · intro hm
    have hrun : run raw w = runWithInputs inputs w := by simp [run, hg]
    rw [hrun]
    have hm2 : inputs.hfRepo ≠ "" ∧ inputs.buildTarget = "build-and-upload" := by
      simpa [needsManualUpload, Bool.and_eq_true, bne_iff_ne, beq_iff_eq]
        using hm
    have hb : (inputs.hfRepo != "") = true := bne_iff_ne.mpr hm2.1
    have hcx : (inputs.cachixName != "" && w.cachixFails) = false := by
      simp [hcf]
    unfold runWithInputs
    simp only [hi, hcx, Bool.false_eq_true, if_false, reduceIte, hm,
      buildKernel_calls,
      buildKernel_ok_of_resultExists _ _ _ _ _ _ hnf hre, hmf, hb,
      successEarly]
    simp

/-- Witness for C1 at a concrete configuration requesting
build-and-upload with a user repository, in the happy-path world. -/
theorem manual_upload_path_witness :
    ExternalCall.nix "build" true ("." ++ "#" ++ "build-and-copy")
      (some "org/model") ∈
      (run { buildTarget := "build-and-upload", hfRepo := "org/model" }
        happyWorld).calls ∧
    ExternalCall.manualUpload "." "org/model" ∈
      (run { buildTarget := "build-and-upload", hfRepo := "org/model" }
        happyWorld).calls ∧
    (run { buildTarget := "build-and-upload", hfRepo := "org/model" }
      happyWorld).result = RunResult.success ∧
    (run { buildTarget := "build-and-upload", hfRepo := "org/model" }
      happyWorld).outputs =
      [("kernel-path", ""), ("artifact-name", "kernel")] :=
  (manual_upload_path
    { buildTarget := "build-and-upload", hfRepo := "org/model" }
    happyWorld
    { defaultInputs with buildTarget := "build-and-upload", hfRepo := "org/model" }
    rfl rfl rfl rfl rfl rfl).2 rfl

theorem setupCachixCalls_are_cachix (n t : String) :
    ∀ c ∈ setupCachixCalls n t, isCachixCall c = true := by
  intro c hc
  unfold setupCachixCalls at hc
  split at hc
  · simp at hc
  · simp only [List.mem_append, List.mem_singleton] at hc
    rcases hc with (h | h) | h
    · subst h
      rfl
    · split at h
      · simp at h
        subst h
        rfl
      · simp at h
    · subst h
      rfl

theorem cachix_call_not_distribution (c : ExternalCall)
    (h : isCachixCall c = true) :
    isCopyCall c = false ∧ isUploadCall c = false ∧ isPublishCall c = false := by
  cases c <;> simp_all [isCachixCall, isCopyCall, isUploadCall, isPublishCall]

/-- Claim C2: in run mode, a missing result path after the nix invocation
is not an error: the build stage yields a null artifact path, packaging,
artifact upload and hub publish are all skipped, the kernel-path output is
empty, the artifact-name output is the resolved name, and the run
succeeds. -/
theorem run_mode_missing_result_succeeds (raw : RawInputs) (w : World)
    (inputs : ActionInputs) (hg : getInputs raw = Except.ok inputs)
    (hmode : inputs.nixCommand = NixCommand.run)
    (hre : w.resultExists = false)
    (hi : w.installFails = false) (hcf : w.cachixFails = false)
    (hnf : w.nixFails = false) (hmf : w.manualUploadFails = false) :
    (buildKernel inputs.kernelPath
      (if needsManualUpload inputs then "build-and-copy"
        else inputs.buildTarget)
      inputs.nixCommand inputs.verbose inputs.hfRepo w).2 = Except.ok none ∧
    (∀ c ∈ (run raw w).calls, isCopyCall c = false ∧ isUploadCall c = false ∧
      isPublishCall c = false) ∧
    (run raw w).outputs =
      [("kernel-path", ""), ("artifact-name", inputs.artifactName)] ∧
    (run raw w).result = RunResult.success := by
  have hrun : run raw w = runWithInputs inputs w := by
    simp [run, hg]
  have hcx : (inputs.cachixName != "" && w.cachixFails) = false := by
    simp [hcf]
  have hbk : (buildKernel inputs.kernelPath
      (if needsManualUpload inputs then "build-and-copy"
        else inputs.buildTarget)
      inputs.nixCommand inputs.verbose inputs.hfRepo w).2 = Except.ok none := by
    rw [hmode]
    exact buildKernel_run_none _ _ _ _ _ hnf hre
  refine ⟨hbk, ?_⟩
  rw [hrun]
  unfold runWithInputs
  simp only [hi, hcx, Bool.false_eq_true, if_false, reduceIte,
    buildKernel_calls, hbk, hmf]
  cases hm : needsManualUpload inputs with
  | true =>
    simp only [hm, reduceIte, hmf, Bool.false_eq_true, if_false, successEarly]
    refine ⟨?_, by trivial, by trivial⟩
    intro c hc
    simp only [List.mem_append, List.mem_singleton, List.mem_cons,
      List.not_mem_nil, or_false] at hc
    rcases hc with ((h | h) | h) | h
    · subst h
      exact ⟨rfl, rfl, rfl⟩
    · exact cachix_call_not_distribution c (setupCachixCalls_are_cachix _ _ c h)
    · subst h
      exact ⟨rfl, rfl, rfl⟩
    · subst h
      exact ⟨rfl, rfl, rfl⟩
  | false =>
    simp only [hm, Bool.false_eq_true, if_false, reduceIte, successEarly]
    refine ⟨?_, by trivial, by trivial⟩
    intro c hc
    simp only [List.mem_append, List.mem_singleton] at hc
    rcases hc with (h | h) | h
    · subst h
      exact ⟨rfl, rfl, rfl⟩
    · exact cachix_call_not_distribution c (setupCachixCalls_are_cachix _ _ c h)
    · subst h
      exact ⟨rfl, rfl, rfl⟩

/-- Witness for C2: run mode with no result directory, happy world
otherwise. -/
theorem run_mode_missing_result_succeeds_witness :
    (buildKernel "." "ci" NixCommand.run true "" { resultExists := false }).2 =
      Except.ok none ∧
    (∀ c ∈ (run { nixCommand := "run" } { resultExists := false }).calls,
      isCopyCall c = false ∧ isUploadCall c = false ∧
      isPublishCall c = false) ∧
    (run { nixCommand := "run" } { resultExists := false }).outputs =
      [("kernel-path", ""), ("artifact-name", "kernel")] ∧
    (run { nixCommand := "run" } { resultExists := false }).result =
      RunResult.success :=
  run_mode_missing_result_succeeds { nixCommand := "run" }
    { resultExists := false } { defaultInputs with nixCommand := .run }
    rfl rfl rfl rfl rfl rfl rfl

/-- Claim C3: in build mode, a missing result path after the nix
invocation fails the run with the build-result-missing message, no
packaging, upload, publish or manual-upload call occurs, and no output is
set. -/
theorem build_mode_missing_result_fails (raw : RawInputs) (w : World)
    (inputs : ActionInputs) (hg : getInputs raw = Except.ok inputs)
    (hmode : inputs.nixCommand = NixCommand.build)
    (hre : w.resultExists = false)
    (hi : w.installFails = false) (hcf : w.cachixFails = false)
    (hnf : w.nixFails = false) :
    (run raw w).result = RunResult.failed ("Build result not found at " ++
      pathJoin (pathResolve inputs.kernelPath) "result") ∧
    (∀ c ∈ (run raw w).calls, isCopyCall c = false ∧ isUploadCall c = false ∧
      isPublishCall c = false ∧ isManualUploadCall c = false) ∧
    (run raw w).outputs = [] := by
  have hrun : run raw w = runWithInputs inputs w := by
    simp [run, hg]
  have hcx : (inputs.cachixName != "" && w.cachixFails) = false := by
    simp [hcf]
  have hbk : (buildKernel inputs.kernelPath
      (if needsManualUpload inputs then "build-and-copy"
        else inputs.buildTarget)
      inputs.nixCommand inputs.verbose inputs.hfRepo w).2 =
      Except.error ("Build result not found at " ++
        pathJoin (pathResolve inputs.kernelPath) "result") := by
    rw [hmode]
    exact buildKernel_build_missing _ _ _ _ _ hnf hre
  rw [hrun]
  unfold runWithInputs
  simp only [hi, hcx, Bool.false_eq_true, if_false, reduceIte,
    buildKernel_calls, hbk, failTrace]
  refine ⟨by trivial, ?_, by trivial⟩
  intro c hc
  simp only [List.mem_append, List.mem_singleton] at hc
  rcases hc with (h | h) | h
  · subst h
    exact ⟨rfl, rfl, rfl, rfl⟩
  · have := setupCachixCalls_are_cachix _ _ c h
    cases c <;> simp_all [isCachixCall, isCopyCall, isUploadCall,
      isPublishCall, isManualUploadCall]
  · subst h
    exact ⟨rfl, rfl, rfl, rfl⟩

/-- Witness for C3: build mode with no result directory. -/
theorem build_mode_missing_result_fails_witness :
    (run {} { resultExists := false }).result =
      RunResult.failed ("Build result not found at " ++
        pathJoin (pathResolve ".") "result") ∧
    (∀ c ∈ (run {} { resultExists := false }).calls,
      isCopyCall c = false ∧ isUploadCall c = false ∧
      isPublishCall c = false ∧ isManualUploadCall c = false) ∧
    (run {} { resultExists := false }).outputs = [] :=
  build_mode_missing_result_fails {} { resultExists := false } defaultInputs
    rfl rfl rfl rfl rfl rfl

theorem runWithInputs_failed_outputs (inputs : ActionInputs) (w : World)
    (msg : String)
    (h : (runWithInputs inputs w).result = RunResult.failed msg) :
    (runWithInputs inputs w).outputs = [] ∨
      ((w.uploadFails = true ∨ w.publishFails = true) ∧
        (runWithInputs inputs w).outputs =
          [("kernel-path", inputs.artifactName ++ "-output"),
           ("artifact-name", inputs.artifactName)]) := by
  unfold runWithInputs at h ⊢
  cases hi : w.installFails with
  | true =>
    simp only [hi, reduceIte] at h ⊢
    left
    rfl
  | false =>
    simp only [hi, Bool.false_eq_true, if_false, reduceIte] at h ⊢
    cases hc2 : inputs.cachixName != "" && w.cachixFails with
    | true =>
      simp only [hc2, reduceIte] at h ⊢
      left
      rfl
    | false =>
      simp only [hc2, Bool.false_eq_true, if_false, reduceIte] at h ⊢
      cases h2 : (buildKernel inputs.kernelPath
          (if needsManualUpload inputs = true then "build-and-copy"
            else inputs.buildTarget)
          inputs.nixCommand inputs.verbose inputs.hfRepo w).2 with
      | error m =>
        simp only [h2] at h ⊢
        left
        rfl
      | ok rp =>
        simp only [h2] at h ⊢
        cases hm : needsManualUpload inputs with
        | true =>
          simp only [hm, reduceIte] at h ⊢
          cases hmf : w.manualUploadFails with
          | true =>
            simp only [hmf, reduceIte] at h ⊢
            left
            rfl
          | false =>
            simp [hmf, successEarly] at h
        | false =>
          simp only [hm, Bool.false_eq_true, if_false, reduceIte] at h ⊢
          cases rp with
          | none => simp [successEarly] at h
          | some p =>
            cases hcf : w.copyFails with
            | true =>
              simp only [hcf, reduceIte] at h ⊢
              left
              rfl
            | false =>
              simp only [hcf, Bool.false_eq_true, if_false, reduceIte] at h ⊢
              right
              exact ⟨afterCopy_failed _ _ _ _ _ _ h,
                afterCopy_outputs _ _ _ _ _⟩

/-- Counterexample to C4 as stated: with the all-default configuration
and a failing artifact upload, the run ends in failure, yet both the
kernel-path and the artifact-name output were set (at the end of
packaging, before the upload ran). -/
theorem failed_run_outputs_cex :
    (run emptyRaw { uploadFails := true }).result =
      RunResult.failed uploadFailMsg ∧
    (run emptyRaw { uploadFails := true }).outputs =
      [("kernel-path", "kernel-output"), ("artifact-name", "kernel")] := by
  constructor <;> rfl

/-- Claim C4 (amended): on a failed run, either no output was set (any
failure up to and including packaging), or the failure arose in the
artifact-upload or hub-publish step, in which case both outputs had
already been set when packaging finished and remain set. -/
theorem failed_run_outputs (raw : RawInputs) (w : World) (msg : String)
    (h : (run raw w).result = RunResult.failed msg) :
    (run raw w).outputs = [] ∨
      ((w.uploadFails = true ∨ w.publishFails = true) ∧
        ∃ name, (run raw w).outputs =
          [("kernel-path", name ++ "-output"), ("artifact-name", name)]) := by
  cases hg : getInputs raw with
  | error m =>
    left
    simp [run, hg, failTrace]
  | ok inputs =>
    have hrun : run raw w = runWithInputs inputs w := by
      simp [run, hg]
    rw [hrun] at h ⊢
    rcases runWithInputs_failed_outputs inputs w msg h with h1 | ⟨h1, h2⟩
    · exact Or.inl h1
    · exact Or.inr ⟨h1, inputs.artifactName, h2⟩

/-- Witness for the amended C4 at the failing-upload run. -/
theorem failed_run_outputs_witness :
    (run emptyRaw { uploadFails := true }).outputs = [] ∨
      ((({ uploadFails := true } : World).uploadFails = true ∨
        ({ uploadFails := true } : World).publishFails = true) ∧
        ∃ name, (run emptyRaw { uploadFails := true }).outputs =
          [("kernel-path", name ++ "-output"), ("artifact-name", name)]) :=
  failed_run_outputs emptyRaw { uploadFails := true } uploadFailMsg rfl

/-- Counterexample to C6 as stated: publish is enabled and both
credentials are empty, yet on the run-mode early-return path (no result
directory) the run succeeds WITHOUT emitting any warning: the
missing-credentials warning is only reached when a packaged artifact
exists. -/
theorem publish_skip_warning_cex :
    getInputs { nixCommand := "run", publish := "true" } =
      Except.ok { defaultInputs with nixCommand := .run, publish := true } ∧
    ({ defaultInputs with nixCommand := .run, publish := true } :
      ActionInputs).hfToken = "" ∧
    ({ defaultInputs with nixCommand := .run, publish := true } :
      ActionInputs).hfRepo = "" ∧
    (run { nixCommand := "run", publish := "true" }
      { resultExists := false }).result = RunResult.success ∧
    (run { nixCommand := "run", publish := "true" }
      { resultExists := false }).warnings = [] :=
  ⟨rfl, rfl, rfl, rfl, rfl⟩

/-- Claim C6 (amended): when publish is enabled but a credential is
missing, the hub publish never runs; provided execution reaches the
distribution stage (no earlier failure, a result directory exists, the
manual-upload path is not taken), the skip warning is emitted and the
run still succeeds. On the early-return paths the publish step is
equally skipped but no warning is emitted. -/
theorem publish_skip_warning (raw : RawInputs) (w : World)
    (inputs : ActionInputs) (hg : getInputs raw = Except.ok inputs)
    (hp : inputs.publish = true)
    (hcred : inputs.hfToken = "" ∨ inputs.hfRepo = "")
    (hnm : needsManualUpload inputs = false)
    (hre : w.resultExists = true)
    (hi : w.installFails = false) (hcf : w.cachixFails = false)
    (hnf : w.nixFails = false) (hcp : w.copyFails = false)
    (huf : w.uploadFails = false) :
    (∀ c ∈ (run raw w).calls, isPublishCall c = false) ∧
    (run raw w).warnings = [publishSkippedWarning] ∧
    (run raw w).result = RunResult.success := by
  have hrun : run raw w = runWithInputs inputs w := by
    simp [run, hg]
  have hcx : (inputs.cachixName != "" && w.cachixFails) = false := by
    simp [hcf]
  have hbk := buildKernel_ok_of_resultExists inputs.kernelPath
    inputs.buildTarget inputs.nixCommand inputs.verbose inputs.hfRepo w hnf hre
  have hpubcond :
      (inputs.publish && inputs.hfToken != "" && inputs.hfRepo != "") =
        false := by
    rcases hcred with h | h <;> simp [h]
  rw [hp] at hpubcond
  rw [hrun]
  unfold runWithInputs
  simp only [hi, hcx, Bool.false_eq_true, if_false, reduceIte,
    buildKernel_calls, hbk, hnm, hcp]
  unfold afterCopy publishStep
  simp only [hpubcond, Bool.false_eq_true, if_false, reduceIte, hp,
    if_true, huf]
  cases hu : inputs.uploadArtifact with
  | true =>
    simp only [hu, reduceIte]
    refine ⟨?_, by trivial, by trivial⟩
    intro c hc
    simp only [List.mem_append, List.mem_singleton] at hc
    rcases hc with (((h | h) | h) | h) | h
    · subst h
      rfl
    · exact (cachix_call_not_distribution c
        (setupCachixCalls_are_cachix _ _ c h)).2.2
    · subst h
      rfl
    · subst h
      rfl
    · subst h
      rfl
  | false =>
    simp only [hu, Bool.false_eq_true, if_false, reduceIte]
    refine ⟨?_, by trivial, by trivial⟩
    intro c hc
    simp only [List.mem_append, List.mem_singleton] at hc
    rcases hc with ((h | h) | h) | h
    · subst h
      rfl
    · exact (cachix_call_not_distribution c
        (setupCachixCalls_are_cachix _ _ c h)).2.2
    · subst h
      rfl
    · subst h
      rfl

/-- Witness for the amended C6: publish enabled with an empty token, the
build produces a result, everything else succeeds. -/
theorem publish_skip_warning_witness :
    (∀ c ∈ (run { publish := "true" } happyWorld).calls,
      isPublishCall c = false) ∧
    (run { publish := "true" } happyWorld).warnings =
      [publishSkippedWarning] ∧
    (run { publish := "true" } happyWorld).result = RunResult.success :=
  publish_skip_warning { publish := "true" } happyWorld
    { defaultInputs with publish := true }
    rfl rfl (Or.inl rfl) rfl rfl rfl rfl rfl rfl rfl

/-- Claim C10: on the manual-upload path (hf-repo non-empty, requested
target build-and-upload) the generic artifact upload and the hub publish
never run, whatever the upload and publish flags and credentials hold;
when the preceding stages succeed the run returns immediately after the
direct upload: it is the last external call, the run succeeds, and the
kernel-path output is empty. -/
theorem manual_upload_no_distribution (raw : RawInputs) (w : World)
    (inputs : ActionInputs) (hg : getInputs raw = Except.ok inputs)
    (hm : needsManualUpload inputs = true) :
    (∀ c ∈ (run raw w).calls, isUploadCall c = false ∧
      isPublishCall c = false) ∧
    (w.installFails = false → w.cachixFails = false → w.nixFails = false →
      w.resultExists = true → w.manualUploadFails = false →
      (run raw w).result = RunResult.success ∧
      (run raw w).calls.getLast? =
        some (ExternalCall.manualUpload inputs.kernelPath inputs.hfRepo) ∧
      (run raw w).outputs =
        [("kernel-path", ""), ("artifact-name", inputs.artifactName)]) := by
  have hrun : run raw w = runWithInputs inputs w := by
    simp [run, hg]
  rw [hrun]
  constructor
  · unfold runWithInputs
    cases hi : w.installFails with
    | true =>
      simp only [hi, reduceIte, failTrace]
      intro c hc
      simp only [List.mem_singleton] at hc
      subst hc
      exact ⟨rfl, rfl⟩
    | false =>
      simp only [hi, Bool.false_eq_true, if_false, reduceIte]
      cases hc2 : inputs.cachixName != "" && w.cachixFails with
      | true =>
        simp only [hc2, reduceIte, failTrace]
        intro c hc
        simp only [List.mem_append, List.mem_singleton] at hc
        rcases hc with h | h
        · subst h
          exact ⟨rfl, rfl⟩
        · have hcall := cachix_call_not_distribution c
            (setupCachixCalls_are_cachix _ _ c h)
          exact ⟨hcall.2.1, hcall.2.2⟩
      | false =>
        simp only [hc2, Bool.false_eq_true, if_false, reduceIte,
          buildKernel_calls]
        cases h2 : (buildKernel inputs.kernelPath
            (if needsManualUpload inputs = true then "build-and-copy"
              else inputs.buildTarget)
            inputs.nixCommand inputs.verbose inputs.hfRepo w).2 with
        | error m =>
          simp only [h2, failTrace]
          intro c hc
          simp only [List.mem_append, List.mem_singleton] at hc
          rcases hc with (h | h) | h
          · subst h
            exact ⟨rfl, rfl⟩
          · have hcall := cachix_call_not_distribution c
              (setupCachixCalls_are_cachix _ _ c h)
            exact ⟨hcall.2.1, hcall.2.2⟩
          · subst h
            exact ⟨rfl, rfl⟩
        | ok rp =>
          simp only [h2, hm, reduceIte]
          cases hmf : w.manualUploadFails with
          | true =>
            simp only [hmf, reduceIte, failTrace]
            intro c hc
            simp only [List.mem_append, List.mem_singleton] at hc
            rcases hc with ((h | h) | h) | h
            · subst h
              exact ⟨rfl, rfl⟩
            · have hcall := cachix_call_not_distribution c
                (setupCachixCalls_are_cachix _ _ c h)
              exact ⟨hcall.2.1, hcall.2.2⟩
            · subst h
              exact ⟨rfl, rfl⟩
            · subst h
              exact ⟨rfl, rfl⟩
          | false =>
            simp only [hmf, Bool.false_eq_true, if_false, reduceIte,
              successEarly]
            intro c hc
            simp only [List.mem_append, List.mem_singleton] at hc
            rcases hc with ((h | h) | h) | h
            · subst h
              exact ⟨rfl, rfl⟩
            · have hcall := cachix_call_not_distribution c
                (setupCachixCalls_are_cachix _ _ c h)
              exact ⟨hcall.2.1, hcall.2.2⟩
            · subst h
              exact ⟨rfl, rfl⟩
            · subst h
              exact ⟨rfl, rfl⟩
  · intro hi hcf hnf hre hmf
    have hcx : (inputs.cachixName != "" && w.cachixFails) = false := by
      simp [hcf]
    have hbk := buildKernel_ok_of_resultExists inputs.kernelPath
      "build-and-copy" inputs.nixCommand inputs.verbose inputs.hfRepo w
      hnf hre
    unfold runWithInputs
    simp only [hi, hcx, Bool.false_eq_true, if_false, reduceIte, hm,
      buildKernel_calls, hbk, hmf, successEarly]
    refine ⟨by trivial, ?_, by trivial⟩
    exact List.getLast?_concat _

/-- Witness for C10 at a concrete build-and-upload configuration with a
user repository, in the happy-path world. -/
theorem manual_upload_no_distribution_witness :
    (∀ c ∈ (run { buildTarget := "build-and-upload", hfRepo := "org/model" }
      happyWorld).calls, isUploadCall c = false ∧ isPublishCall c = false) ∧
    (run { buildTarget := "build-and-upload", hfRepo := "org/model" }
      happyWorld).result = RunResult.success := by
  have h := manual_upload_no_distribution
    { buildTarget := "build-and-upload", hfRepo := "org/model" } happyWorld
    { defaultInputs with buildTarget := "build-and-upload", hfRepo := "org/model" }
    rfl rfl
  exact ⟨h.1, (h.2 rfl rfl rfl rfl rfl).1⟩
